import Mathlib

/-!
Verification of the time-tracking agent's core subsystems against its
natural-language specification.

The Go source is shallowly embedded: pure helpers from the `strings` and
`regexp` packages are re-implemented over `List Char` with Go's semantics
(for the ASCII inputs the agent handles); stateful components (event queue,
URL store, event collector, activity tracker) become explicit state-passing
functions; the SQL-backed queue becomes a list of rows; fallible database
calls take an explicit fault description and return `Except`.

Wall-clock instants are explicit `Int`/`Nat` parameters (`now`), matching the
`time.Now()` calls in the source.  Go map iteration order is unspecified; the
embedding fixes the source-listing order wherever the Go code ranges over a
map literal, and this is noted at each such definition.
-/

set_option maxRecDepth 4096
set_option linter.unnecessarySeqFocus false

namespace TimeAgent

/-! ## Go string primitives

Reimplementations of the parts of Go's `strings` package the agent uses,
over `List Char` (ASCII-faithful). -/

/-- ASCII lowercase of one character, as `strings.ToLower` acts on ASCII. -/
def asciiToLower (c : Char) : Char :=
  if 'A' ≤ c ∧ c ≤ 'Z' then Char.ofNat (c.toNat + 32) else c

/-- Go `strings.ToLower` (ASCII fragment). -/
def goToLower (s : String) : String := ⟨s.data.map asciiToLower⟩

/-- Whitespace as recognised by Go's `unicode.IsSpace` on ASCII
(used by `strings.TrimSpace`). -/
def goIsSpace (c : Char) : Bool :=
  c = ' ' ∨ c = '\t' ∨ c = '\n' ∨ c = '\x0b' ∨ c = '\x0c' ∨ c = '\r'

/-- Substring test on character lists (Go `strings.Contains`). -/
def listContains (hay needle : List Char) : Bool :=
  hay.tails.any (fun t => needle.isPrefixOf t)

/-- Go `strings.Contains`. -/
def goContains (s sub : String) : Bool := listContains s.data sub.data

/-- Go `strings.HasPrefix`. -/
def goStartsWith (s p : String) : Bool := p.data.isPrefixOf s.data

/-- Go `strings.HasSuffix`. -/
def goEndsWith (s p : String) : Bool := p.data.isSuffixOf s.data

/-- Go `strings.TrimPrefix`: drop `p` from the front of `s` when present. -/
def goStripStart (s p : String) : String :=
  if goStartsWith s p then ⟨s.data.drop p.data.length⟩ else s

/-- Go `strings.TrimSuffix`: drop `p` from the end of `s` when present. -/
def goStripEnd (s p : String) : String :=
  if goEndsWith s p then ⟨s.data.take (s.data.length - p.data.length)⟩ else s

/-- Go `strings.TrimSpace` (ASCII fragment). -/
def goTrimSpace (s : String) : String :=
  ⟨((s.data.dropWhile goIsSpace).reverse.dropWhile goIsSpace).reverse⟩

/-- Fuel-indexed worker for `goSplit`; fuel bounds the number of characters
consumed, so `length s + 1` fuel always suffices for a non-empty separator. -/
def splitFuel (sep : List Char) : Nat → List Char → List Char → List (List Char)
  | 0, cur, s => [cur.reverse ++ s]
  | fuel + 1, cur, s =>
    match s with
    | [] => [cur.reverse]
    | c :: rest =>
      if sep.isPrefixOf (c :: rest) then
        cur.reverse :: splitFuel sep fuel [] (List.drop sep.length (c :: rest))
      else
        splitFuel sep fuel (c :: cur) rest

/-- Go `strings.Split` for a non-empty separator. -/
def goSplit (s sep : String) : List String :=
  (splitFuel sep.data (s.data.length + 1) [] s.data).map (fun l => ⟨l⟩)

/-- Fuel-indexed worker for `goReplaceAll`. -/
def replaceFuel (old new : List Char) : Nat → List Char → List Char
  | 0, s => s
  | fuel + 1, s =>
    match s with
    | [] => []
    | c :: rest =>
      if old ≠ [] ∧ old.isPrefixOf (c :: rest) then
        new ++ replaceFuel old new fuel (List.drop old.length (c :: rest))
      else
        c :: replaceFuel old new fuel rest

/-- Go `strings.ReplaceAll` for a non-empty pattern: replaces non-overlapping
occurrences left to right, never rescanning the replacement text. -/
def goReplaceAll (s old new : String) : String :=
  ⟨replaceFuel old.data new.data (s.data.length + 1) s.data⟩

/-! ## Regular expressions of the title parser

`tracking_service.go` compiles four regular expressions; each is embedded
here as a dedicated matcher with Go's leftmost-first (Perl-like) semantics:
the match starting earliest wins, greedy quantifiers try longest first, and
alternatives are tried in written order. -/

/-- Character class `[a-zA-Z0-9.-]` of the URL and domain regexes. -/
def isHostChar (c : Char) : Bool :=
  ('a' ≤ c ∧ c ≤ 'z') ∨ ('A' ≤ c ∧ c ≤ 'Z') ∨ ('0' ≤ c ∧ c ≤ '9') ∨ c = '.' ∨ c = '-'

/-- Character class `[a-zA-Z]`. -/
def isAsciiAlpha (c : Char) : Bool :=
  ('a' ≤ c ∧ c ≤ 'z') ∨ ('A' ≤ c ∧ c ≤ 'Z')

/-- Word character for the RE2 `\b` assertion: `[0-9A-Za-z_]`. -/
def isWordChar (c : Char) : Bool :=
  ('a' ≤ c ∧ c ≤ 'z') ∨ ('A' ≤ c ∧ c ≤ 'Z') ∨ ('0' ≤ c ∧ c ≤ '9') ∨ c = '_'

/-- Backtracking worker for the group `[a-zA-Z0-9.-]+\.[a-zA-Z]{2,}` inside a
maximal host-character run: tries the greedy `+` length from `n` downwards,
then requires a dot and at least two letters (taken greedily). -/
def tryHostTail (run : List Char) : Nat → Option (List Char)
  | 0 => none
  | k + 1 =>
    match run.drop (k + 1) with
    | '.' :: tail =>
      let alpha := tail.takeWhile isAsciiAlpha
      if alpha.length ≥ 2 then some (run.take (k + 1) ++ '.' :: alpha)
      else tryHostTail run k
    | _ => tryHostTail run k

/-- Match of `https?://([a-zA-Z0-9.-]+\.[a-zA-Z]{2,})` anchored at the head of
`s`, returning capture group 1. -/
def urlRegexAt (s : List Char) : Option (List Char) :=
  if ("https://".data).isPrefixOf s then
    let run := (s.drop 8).takeWhile isHostChar
    tryHostTail run run.length
  else if ("http://".data).isPrefixOf s then
    let run := (s.drop 7).takeWhile isHostChar
    tryHostTail run run.length
  else none

/-- Scan for the leftmost position at which an anchored matcher succeeds. -/
def scanLeftmost (f : List Char → Option (List Char)) : List Char → Option (List Char)
  | [] => none
  | c :: rest =>
    match f (c :: rest) with
    | some r => some r
    | none => scanLeftmost f rest

/-- `urlRegex.FindStringSubmatch(title)[1]`: the host captured by
`https?://([a-zA-Z0-9.-]+\.[a-zA-Z]{2,})` at the leftmost match, if any. -/
def urlRegexFind (s : String) : Option String :=
  (scanLeftmost urlRegexAt s.data).map (fun l => ⟨l⟩)

/-- The closed TLD alternation of the domain regex in
`extractDomainFromTitleText`, in its written order (duplicates kept). -/
def tldAlternatives : List String :=
  ["com", "org", "net", "io", "co", "edu", "gov", "uk", "de", "fr", "jp",
   "au", "ca", "in", "br", "ru", "cn", "es", "it", "nl", "se", "no", "dk",
   "fi", "pl", "cz", "at", "ch", "be", "ie", "pt", "gr", "tr", "za", "mx",
   "ar", "cl", "pe", "ve", "ec", "uy", "py", "bo", "cr", "pa", "do", "gt",
   "hn", "ni", "sv", "bz", "jm", "tt", "bb", "gd", "lc", "vc", "ag", "dm",
   "kn", "ai", "vg", "ky", "ms", "tc", "fk", "gi", "mt", "cy", "is", "li",
   "mc", "ad", "sm", "va", "lu", "mo", "hk", "sg", "my", "th", "ph", "id",
   "vn", "kh", "la", "mm", "bn", "pk", "bd", "lk", "np", "af", "ir", "iq",
   "sa", "ae", "kw", "bh", "qa", "om", "ye", "jo", "lb", "sy", "il", "ps",
   "eg", "ly", "tn", "dz", "ma", "mr", "sn", "ml", "bf", "ne", "td", "sd",
   "er", "et", "dj", "so", "ke", "ug", "rw", "bi", "tz", "zm", "mw", "mz",
   "ao", "na", "bw", "sz", "ls", "mg", "mu", "sc", "km", "yt", "re", "io",
   "sh", "ac", "gs", "tf", "aq", "bv", "hm", "sj", "um", "as", "gu", "mp",
   "pr", "vi", "fm", "mh", "pw", "ck", "nu", "pn", "tk", "to", "tv", "vu",
   "ws", "nf", "nr", "ki", "sb", "pg", "fj", "nc", "pf", "wf", "eh", "ax",
   "gg", "je", "im", "fo", "gl", "pm", "bl", "mf", "so", "dev"]

/-- Backtracking worker for `[a-zA-Z0-9.-]+\.(com|org|…|dev)` inside a maximal
host-character run: greedy `+` length from `n` downwards, then a dot, then the
first TLD alternative (in written order) that matches literally. -/
def tryDomainTail (run : List Char) : Nat → Option (List Char)
  | 0 => none
  | k + 1 =>
    match run.drop (k + 1) with
    | '.' :: tail =>
      match tldAlternatives.find? (fun t => t.data.isPrefixOf tail) with
      | some t => some (run.take (k + 1) ++ '.' :: t.data)
      | none => tryDomainTail run k
    | _ => tryDomainTail run k

/-- Match of the domain regex anchored at the head of `s` (capture group 1 is
the whole match). -/
def domainRegexAt (s : List Char) : Option (List Char) :=
  let run := s.takeWhile isHostChar
  tryDomainTail run run.length

/-- `domainRegex.FindStringSubmatch(titleLower)[1]` at the leftmost match. -/
def domainRegexFind (s : String) : Option String :=
  (scanLeftmost domainRegexAt s.data).map (fun l => ⟨l⟩)

/-- RE2 `\bgoogle\b` tested against `s`: the literal `google` with no word
character on either side.  `prev` is the character preceding the current
suffix (`none` at the start of the text). -/
def wordBoundedGoogleAux (prev : Option Char) : List Char → Bool
  | [] => false
  | c :: rest =>
    (("google".data).isPrefixOf (c :: rest)
      && (match prev with | none => true | some p => !(isWordChar p))
      && (match (c :: rest).drop 6 with | [] => true | d :: _ => !(isWordChar d)))
    || wordBoundedGoogleAux (some c) rest

/-- `regexp.MustCompile("\\bgoogle\\b").MatchString(textLower)`. -/
def wordBoundedGoogle (s : String) : Bool := wordBoundedGoogleAux none s.data

/-- Character class `[\(\d\)\s]` of the leading-prefix regex in priority 1 of
the title parser (RE2 `\s` is `[\t\n\f\r ]`). -/
def isParenDigitSpace (c : Char) : Bool :=
  c = '(' ∨ c = ')' ∨ ('0' ≤ c ∧ c ≤ '9') ∨ c = '\t' ∨ c = '\n' ∨ c = '\x0c' ∨ c = '\r' ∨ c = ' '

/-- `regexp.MustCompile("^[\\(\\d\\)\\s]+").ReplaceAllString(s, "")`: the
anchored match removes exactly the leading run of the class. -/
def stripLeadingParenDigits (s : String) : String :=
  ⟨s.data.dropWhile isParenDigitSpace⟩

/-! ## Data model (`internal/models/tracking_event.go`) -/

/-- `models.TrackingEvent`: the unit of externalised output.  Optional fields
are the `*string` / `*int64` pointers of the Go struct. -/
structure TrackingEvent where
  deviceID : String
  timestamp : Int
  status : String
  application : Option String
  title : Option String
  url : Option String
  duration : Option Int
  projectID : Option String
deriving Repr, DecidableEq

/-! ## URL title parser (`tracking_service.go`, `extractDomainFromTitle*`) -/

/-- Browser names recognised by `extractDomainFromTitle` (its local
`browsers` slice, in source order). -/
def browsers : List String :=
  ["chrome", "google chrome", "chromium",
   "firefox", "mozilla firefox",
   "edge", "microsoft edge",
   "safari", "opera", "brave", "vivaldi", "tor browser"]

/-- Browser names and search terms excluded from matching by
`extractDomainFromTitleText` (its local `browserNames` slice, in source
order). -/
def browserNames : List String :=
  ["google chrome", "chrome", "chromium",
   "mozilla firefox", "firefox",
   "microsoft edge", "edge",
   "safari", "opera", "brave", "vivaldi", "tor browser",
   "google search", "search"]

/-- The known-site dictionary `domainMap` of `extractDomainFromTitleText`.
The Go code ranges over a map (unspecified iteration order); the embedding
fixes the source-listing order. -/
def domainMap : List (String × String) :=
  [("youtube", "youtube.com"),
   ("github", "github.com"),
   ("stack overflow", "stackoverflow.com"),
   ("facebook", "facebook.com"),
   ("twitter", "twitter.com"),
   ("x.com", "x.com"),
   ("linkedin", "linkedin.com"),
   ("reddit", "reddit.com"),
   ("instagram", "instagram.com"),
   ("discord", "discord.com"),
   ("slack", "slack.com"),
   ("gmail", "gmail.com"),
   ("outlook", "outlook.com"),
   ("notion", "notion.so"),
   ("figma", "figma.com"),
   ("trello", "trello.com"),
   ("asana", "asana.com"),
   ("jira", "jira.com"),
   ("confluence", "confluence.com"),
   ("medium", "medium.com"),
   ("dev", "dev.to"),
   ("stack exchange", "stackexchange.com"),
   ("wikipedia", "wikipedia.org"),
   ("amazon", "amazon.com"),
   ("netflix", "netflix.com"),
   ("spotify", "spotify.com"),
   ("zoom", "zoom.us"),
   ("microsoft teams", "teams.microsoft.com"),
   ("google meet", "meet.google.com")]

/-- The `isBrowserOrSearchTerm` closure: does `text` contain any entry of
`browserNames`? -/
def isBrowserOrSearchTerm (text : String) : Bool :=
  browserNames.any (fun b => goContains text b)

/-- The `matchGoogleSite` closure: match `google` only via the word-boundary
rule, rejecting texts containing `google chrome`, `google search` or
`chromium`; returns `""` on no match. -/
def matchGoogleSite (text : String) : String :=
  let textLower := goToLower text
  if goContains textLower "google chrome"
      || goContains textLower "google search"
      || goContains textLower "chromium" then ""
  else if wordBoundedGoogle textLower then "google.com"
  else ""

/-- First `domainMap` entry whose key is contained in `text`
(the `for key, domain := range domainMap` loops); `""` on no match. -/
def domainMapLookup (text : String) : String :=
  match domainMap.find? (fun p => goContains text p.1) with
  | some p => p.2
  | none => ""

/-- Priority 1 of `extractDomainFromTitleText`: the first `" - "`-part,
stripped of a leading parenthesised-digit run. -/
def titlePriority1 (parts : List String) : String :=
  match parts with
  | [] => ""
  | p0 :: _ =>
    if p0 = "" then ""
    else
      let firstPart := goTrimSpace (stripLeadingParenDigits (goTrimSpace p0))
      let g := matchGoogleSite firstPart
      if g ≠ "" then g else domainMapLookup firstPart

/-- Priority 2 of `extractDomainFromTitleText`: the second `" - "`-part,
skipped entirely when it contains a browser name or search term. -/
def titlePriority2 (parts : List String) : String :=
  match parts with
  | _ :: p1 :: _ =>
    if p1 = "" then ""
    else
      let secondPart := goTrimSpace p1
      if isBrowserOrSearchTerm secondPart then ""
      else
        let g := matchGoogleSite secondPart
        if g ≠ "" then g else domainMapLookup secondPart
  | _ => ""

/-- Priority 3 of `extractDomainFromTitleText`: the whole lowered title with
every `browserNames` entry scrubbed (in order), then the dictionary. -/
def titlePriority3 (titleLower : String) : String :=
  let cleanedTitle := browserNames.foldl (fun acc b => goReplaceAll acc b "") titleLower
  let g := matchGoogleSite cleanedTitle
  if g ≠ "" then g else domainMapLookup cleanedTitle

/-- `extractDomainFromTitleText`: URL regex on the raw title, then the domain
regex on the lowered title, then the three `" - "`-part priorities; `""` when
nothing matches. -/
def extractDomainFromTitleText (title : String) : String :=
  if title = "" then ""
  else
    let titleLower := goToLower title
    match urlRegexFind title with
    | some host => goStripStart (goToLower host) "www."
    | none =>
      match domainRegexFind titleLower with
      | some host => goStripStart (goToLower host) "www."
      | none =>
        let parts := goSplit titleLower " - "
        let r1 := titlePriority1 parts
        if r1 ≠ "" then r1
        else
          let r2 := titlePriority2 parts
          if r2 ≠ "" then r2
          else titlePriority3 titleLower

/-- `extractDomainFromTitle`: guard on a recognised browser application, then
wrap the extracted domain as an `https://` URL (`none` models the `nil`
return). -/
def extractDomainFromTitle (title application : String) : Option String :=
  if title = "" ∨ application = "" then none
  else
    let appLower := goToLower application
    if !(browsers.any (fun b => goContains appLower b)) then none
    else
      let domain := extractDomainFromTitleText title
      if domain = "" then none else some ("https://" ++ domain)

/-! ## Event collector (`internal/collector/event_collector.go`) -/

/-- The mutable state of `EventCollector` relevant to `AddEvent`: the buffered
events and the configured batch size. -/
structure CollectorState where
  events : List TrackingEvent
  batchSize : Nat
deriving Repr, DecidableEq

/-- `EventCollector.AddEvent`: append under lock; when the buffer has reached
`batchSize` the whole buffer is copied out, the buffer reset, and the copy
handed to the callback outside the lock.  The second component is the batch
passed to `onBatchReady` (`none` when no flush happens). -/
def EventCollector.AddEvent (c : CollectorState) (e : TrackingEvent) :
    CollectorState × Option (List TrackingEvent) :=
  let evs := c.events ++ [e]
  let shouldFlush := evs.length ≥ c.batchSize
  if shouldFlush then ({ c with events := [] }, some evs)
  else ({ c with events := evs }, none)

/-! ## Activity tracker (`internal/tracker/activity_tracker.go`) -/

/-- `tracker.ActivityState`. -/
inductive ActivityState where
  | active
  | idle
  | away
  | offline
deriving Repr, DecidableEq

/-- State derived by `ActivityTracker.checkState` on a periodic tick:
`idleDuration := time.Since(lastActivity)`, then the `switch` with the
`≥ awayThreshold` arm first.  Durations and instants are `Int` nanosecond
counts, as Go's `time.Duration`. -/
def ActivityTracker.checkStateResult (idleThreshold awayThreshold lastActivity now : Int) :
    ActivityState :=
  let idleDuration := now - lastActivity
  if idleDuration ≥ awayThreshold then .away
  else if idleDuration ≥ idleThreshold then .idle
  else .active

/-! ## Backend client (`internal/client/api_client.go`) -/

/-- Outcome of the HTTP POST as seen by `SendBatch`: either the transport
failed before a response arrived, or a response with a status code. -/
inductive HttpOutcome where
  | transportError
  | response (status : Nat)
deriving Repr, DecidableEq

/-- The value `SendBatch` returns, by the distinct Go error values it can
produce: `success` is the `nil` return, `emptyBatchErr` the guard on an empty
events slice, `requestFailedErr` the plain wrapped transport error, and the
last four the typed `AuthError`, `RateLimitError`, `BadRequestError` and
`BackendError` structs. -/
inductive SendOutcome where
  | success
  | emptyBatchErr
  | requestFailedErr
  | authErr
  | rateLimitErr
  | badRequestErr
  | backendErr
deriving Repr, DecidableEq

/-- `APIClient.SendBatch`, reduced to its classification of the HTTP outcome
(the request body, headers and logging do not affect the returned value). -/
def APIClient.SendBatch (events : List TrackingEvent) (outcome : HttpOutcome) : SendOutcome :=
  if events.length = 0 then .emptyBatchErr
  else
    match outcome with
    | .transportError => .requestFailedErr
    | .response status =>
      if 200 ≤ status ∧ status < 300 then .success
      else if status = 401 ∨ status = 403 then .authErr
      else if status = 429 then .rateLimitErr
      else if status = 400 then .badRequestErr
      else .backendErr

/-! ## Durable queue (`internal/queue/event_queue.go`)

The `pending_events` table is a list of rows; `id autoinc` is `nextId`.
Database calls can fail, so the operations take an explicit fault
description and return `Except Unit`. -/

/-- One row of `pending_events`.  `eventData` stands for the JSON-serialised
event (serialisation of `models.TrackingEvent` is injective and total, so the
event itself is stored). -/
structure PendingRow where
  id : Nat
  eventData : TrackingEvent
  deviceID : String
  createdAt : Int
  retryCount : Nat
  lastAttempt : Option Int
deriving Repr, DecidableEq

/-- The queue's persistent state. -/
structure QueueState where
  rows : List PendingRow
  nextId : Nat
deriving Repr, DecidableEq

/-- Faults injected by the database during one `Enqueue` transaction:
`Begin` failing, the per-event `stmt.Exec` calls failing (by index into the
batch), and `Commit` failing. -/
structure DbFaults where
  beginFails : Bool
  insertFails : List Nat
  commitFails : Bool
deriving Repr, DecidableEq

/-- A fault-free database. -/
def noDbFaults : DbFaults := ⟨false, [], false⟩

/-- The insert loop of `Enqueue`: event `i` whose `stmt.Exec` fails is logged
and skipped (`continue`); successful inserts get consecutive autoincrement
ids and `retry_count = 0`. -/
def insertLoop (deviceID : String) (now : Int) :
    Nat → Nat → List TrackingEvent → List Nat → List PendingRow
  | _, _, [], _ => []
  | nextId, i, e :: rest, fails =>
    if fails.contains i then insertLoop deviceID now nextId (i + 1) rest fails
    else ⟨nextId, e, deviceID, now, 0, none⟩ :: insertLoop deviceID now (nextId + 1) (i + 1) rest fails

/-- `EventQueue.Enqueue`: one transaction inserting each event of the batch;
a failed individual insert is skipped without aborting the transaction, while
a `Begin` or `Commit` failure returns an error and leaves the table
unchanged. -/
def EventQueue.Enqueue (q : QueueState) (deviceID : String) (events : List TrackingEvent)
    (now : Int) (f : DbFaults) : Except Unit QueueState :=
  if f.beginFails then .error ()
  else
    let newRows := insertLoop deviceID now q.nextId 0 events f.insertFails
    if f.commitFails then .error ()
    else .ok { rows := q.rows ++ newRows, nextId := q.nextId + newRows.length }

/-- `EventQueue.Remove`: delete-by-id-in; an empty id list returns `nil`
before any database statement is built or executed. -/
def EventQueue.Remove (q : QueueState) (ids : List Nat) (dbFails : Bool) :
    Except Unit QueueState :=
  if ids.length = 0 then .ok q
  else if dbFails then .error ()
  else .ok { q with rows := q.rows.filter (fun r => !(ids.contains r.id)) }

/-- `EventQueue.IncrementRetry`: bump `retry_count` and set `last_attempt` for
the given ids; an empty id list returns `nil` before any database statement is
built or executed. -/
def EventQueue.IncrementRetry (q : QueueState) (ids : List Nat) (now : Int) (dbFails : Bool) :
    Except Unit QueueState :=
  if ids.length = 0 then .ok q
  else if dbFails then .error ()
  else .ok { q with rows := q.rows.map (fun r =>
      if ids.contains r.id then { r with retryCount := r.retryCount + 1, lastAttempt := some now }
      else r) }

/-- `EventQueue.CleanupOldEvents`: delete the rows with
`created_at < now − olderThan AND retry_count > 10`. -/
def EventQueue.CleanupOldEvents (q : QueueState) (now olderThan : Int) : QueueState :=
  let cutoff := now - olderThan
  { q with rows := q.rows.filter (fun r => !(decide (r.createdAt < cutoff) && decide (r.retryCount > 10))) }

/-- An event is present in `pending_events`. -/
def eventInQueue (q : QueueState) (e : TrackingEvent) : Prop :=
  ∃ r ∈ q.rows, r.eventData = e

/-- Stable insertion of a row into a list already sorted by `created_at`
ascending: the row goes after every strictly older row and before rows of
the same age that came later in table order. -/
def insertByCreatedAt (r : PendingRow) : List PendingRow → List PendingRow
  | [] => [r]
  | x :: xs =>
    if x.createdAt < r.createdAt then x :: insertByCreatedAt r xs
    else r :: x :: xs

/-- `ORDER BY created_at ASC` as a stable sort (SQL leaves the order of ties
unspecified; table order is one admissible choice). -/
def sortByCreatedAt : List PendingRow → List PendingRow
  | [] => []
  | r :: rest => insertByCreatedAt r (sortByCreatedAt rest)

/-- The rows selected by `Dequeue`'s query:
`WHERE device_id = ? ORDER BY created_at ASC LIMIT ?`. -/
def dequeueSelect (q : QueueState) (deviceID : String) (limit : Nat) : List PendingRow :=
  (sortByCreatedAt (q.rows.filter (fun r => r.deviceID = deviceID))).take limit

/-- `EventQueue.Dequeue`: return the selected events with their row ids.  The
source deletes a row whose `event_data` fails to unmarshal
(event_queue.go:99-104); that branch is unreachable here because every row is
written by `Enqueue` from `json.Marshal` of a `models.TrackingEvent`, which
is total and inverted by `json.Unmarshal` — so `Dequeue` deletes nothing and
the table is unchanged. -/
def EventQueue.Dequeue (q : QueueState) (deviceID : String) (limit : Nat) :
    List TrackingEvent × List Nat :=
  let selected := dequeueSelect q deviceID limit
  (selected.map PendingRow.eventData, selected.map PendingRow.id)

/-- The queued event of row `r` is still present in the table: some row has
its id and its payload (`IncrementRetry` may have bumped the retry counter
and the last-attempt time, which does not drop the event). -/
def rowSurvives (q : QueueState) (r : PendingRow) : Prop :=
  ∃ r₂ ∈ q.rows, r₂.id = r.id ∧ r₂.eventData = r.eventData

/-! ## Orchestrator sink (`tracking_service.go`, `onBatchReady`) -/

/-- `TrackingService.onBatchReady`: an empty batch returns at once; otherwise
the batch is sent, and on any send error the whole batch is enqueued; an
enqueue error is logged and the batch dropped.  `sendOk` tells whether
`SendBatch` returned `nil` (a 2xx response); the result is the queue state
after the call. -/
def onBatchReady (q : QueueState) (deviceID : String) (events : List TrackingEvent)
    (sendOk : Bool) (now : Int) (f : DbFaults) : QueueState :=
  if events.length = 0 then q
  else if sendOk then q
  else
    match EventQueue.Enqueue q deviceID events now f with
    | .ok q2 => q2
    | .error _ => q

/-- `TrackingService.processQueue`, one drain-worker cycle: read the pending
count (`queryFails` models an error of that query or of the dequeue query,
either of which returns early), return when the count is zero, dequeue up to
100 rows, return when nothing was dequeued; on a send failure increment the
retry counts, on a send success remove the sent rows.  A write error is
logged and leaves the table unchanged. -/
def processQueue (q : QueueState) (deviceID : String) (queryFails sendOk : Bool)
    (now : Int) (writeFails : Bool) : QueueState :=
  if queryFails then q
  else if (q.rows.filter (fun r => r.deviceID = deviceID)).length = 0 then q
  else
    let ids := (EventQueue.Dequeue q deviceID 100).2
    if ids.length = 0 then q
    else if !sendOk then
      match EventQueue.IncrementRetry q ids now writeFails with
      | .ok q₂ => q₂
      | .error _ => q
    else
      match EventQueue.Remove q ids writeFails with
      | .ok q₂ => q₂
      | .error _ => q

/-! ## URL store (`internal/service/url_store.go`)

Instants are `Nat` (seconds or nanoseconds; only differences matter).
`time.Since(t) > ttl` becomes `now - t > ttl`, which also covers Go's
negative-duration case (a future timestamp is never expired, and `Nat`
subtraction truncates it to `0`). -/

/-- `service.URLInfo`: a URL with its insertion timestamp. -/
structure URLInfo where
  url : String
  timestamp : Nat
deriving Repr, DecidableEq

/-- The URL store's map and TTL.  The Go map is an association list; iteration
order of `range` over it is unspecified in Go and fixed to list order here. -/
structure URLStore where
  urls : List (String × URLInfo)
  ttl : Nat
deriving Repr, DecidableEq

/-- Go map assignment `m[key] = v`: replace the binding when present,
otherwise add it. -/
def mapInsert (m : List (String × URLInfo)) (k : String) (v : URLInfo) :
    List (String × URLInfo) :=
  match m with
  | [] => [(k, v)]
  | p :: rest => if p.1 = k then (k, v) :: rest else p :: mapInsert rest k v

/-- The `browserMap` literal of `normalizeApplicationName`, in source-listing
order. -/
def browserMapEntries : List (String × String) :=
  [("chrome", "chrome"),
   ("google chrome", "chrome"),
   ("chromium", "chrome"),
   ("firefox", "firefox"),
   ("mozilla firefox", "firefox"),
   ("edge", "edge"),
   ("microsoft edge", "edge"),
   ("safari", "safari"),
   ("opera", "opera"),
   ("brave", "brave"),
   ("vivaldi", "vivaldi")]

/-- `URLStore.normalizeApplicationName` under one concrete iteration order of
its `browserMap`: Go randomises the order of
`for key, normalized := range browserMap` on every call, so the faithful
model takes the order — any permutation of the map's entries — as a
parameter.  The first entry whose key the lowercased application contains
wins; unknown names fall through as lowercase. -/
def normalizeApplicationNameOrd (order : List (String × String)) (application : String) :
    String :=
  let appLower := goToLower application
  match order.find? (fun p => goContains appLower p.1) with
  | some p => p.2
  | none => appLower

/-- `normalizeApplicationName` at the source-listing order.  For real browser
names every matching key maps to the same tag, so the choice of order is
immaterial there; order-sensitive behaviour is reasoned about through
`normalizeApplicationNameOrd`. -/
def normalizeApplicationName (application : String) : String :=
  normalizeApplicationNameOrd browserMapEntries application

/-- Does the application name normalise to one of the fixed browser tags
(that is, does the `browserMap` loop of `normalizeApplicationName` hit)? -/
def normalizesToKnownBrowser (application : String) : Bool :=
  let appLower := goToLower application
  ["chrome", "google chrome", "chromium", "firefox", "mozilla firefox",
   "edge", "microsoft edge", "safari", "opera", "brave", "vivaldi"].any
    (fun k => goContains appLower k)

/-- `URLStore.normalizeTitle`: trim space, then strip each recognised browser
suffix in turn (re-trimming after each strip). -/
def normalizeTitle (title : String) : String :=
  let suffixes : List String :=
    [" - Google Chrome", " - Chrome", " - Microsoft Edge", " - Edge",
     " - Mozilla Firefox", " - Firefox", " - Safari", " - Opera",
     " - Brave", " - Vivaldi"]
  suffixes.foldl
    (fun t suf => if goEndsWith t suf then goTrimSpace (goStripEnd t suf) else t)
    (goTrimSpace title)

/-- `URLStore.makeKey` under an iteration order of `browserMap`:
`normalised_app + ":" + title`. -/
def makeKeyOrd (order : List (String × String)) (application title : String) : String :=
  normalizeApplicationNameOrd order application ++ ":" ++ title

/-- `URLStore.makeKey` at the source-listing order. -/
def makeKey (application title : String) : String :=
  makeKeyOrd browserMapEntries application title

/-- `URLStore.Store`: insert or overwrite under the key with the current
timestamp. -/
def URLStore.Store (s : URLStore) (key url : String) (now : Nat) : URLStore :=
  { s with urls := mapInsert s.urls key ⟨url, now⟩ }

/-- `URLStore.StoreByApplicationAndTitle` with the `browserMap` iteration
order its `normalizeApplicationName` call happens to see: store under the
normalised key. -/
def URLStore.StoreByApplicationAndTitleOrd (s : URLStore) (order : List (String × String))
    (application title url : String) (now : Nat) : URLStore :=
  URLStore.Store s (makeKeyOrd order application title) url now

/-- `URLStore.StoreByApplicationAndTitle` at the source-listing order. -/
def URLStore.StoreByApplicationAndTitle (s : URLStore) (application title url : String)
    (now : Nat) : URLStore :=
  URLStore.StoreByApplicationAndTitleOrd s browserMapEntries application title url now

/-- `URLStore.Get`: exact-key lookup treating an entry as absent when
`time.Since(timestamp) > ttl`. -/
def URLStore.Get (s : URLStore) (key : String) (now : Nat) : Option String :=
  match s.urls.find? (fun p => p.1 = key) with
  | none => none
  | some p => if now - p.2.timestamp > s.ttl then none else some p.2.url

/-- The per-entry test of the fuzzy scan in `GetByApplicationAndTitle`:
not expired, key begins with `normalizedApp + ":"`, and the normalised stored
title equals, contains, or is contained in the fuzzy title. -/
def fuzzyEntryMatches (ttl : Nat) (normalizedApp fuzzyTitle : String) (now : Nat)
    (p : String × URLInfo) : Bool :=
  !(decide (now - p.2.timestamp > ttl))
    && goStartsWith p.1 (normalizedApp ++ ":")
    && (let storedTitle := goStripStart p.1 (normalizedApp ++ ":")
        let normalizedStoredTitle := normalizeTitle storedTitle
        decide (normalizedStoredTitle = fuzzyTitle)
          || goContains normalizedStoredTitle fuzzyTitle
          || goContains fuzzyTitle normalizedStoredTitle)

/-- `URLStore.GetByApplicationAndTitle` with the `browserMap` iteration order
its `normalizeApplicationName` call happens to see: exact match first, then
the fuzzy scan over the stored entries (first hit wins, expired entries
skipped). -/
def URLStore.GetByApplicationAndTitleOrd (s : URLStore) (order : List (String × String))
    (application title : String) (now : Nat) : Option String :=
  let normalizedApp := normalizeApplicationNameOrd order application
  let exactKey := normalizedApp ++ ":" ++ title
  match URLStore.Get s exactKey now with
  | some url => some url
  | none =>
    let fuzzyTitle := normalizeTitle title
    match s.urls.find? (fuzzyEntryMatches s.ttl normalizedApp fuzzyTitle now) with
    | some p => some p.2.url
    | none => none

/-- `URLStore.GetByApplicationAndTitle` at the source-listing order. -/
def URLStore.GetByApplicationAndTitle (s : URLStore) (application title : String)
    (now : Nat) : Option String :=
  URLStore.GetByApplicationAndTitleOrd s browserMapEntries application title now

/-- A URL returned by a lookup at `now` is carried by some stored entry whose
age does not exceed the TTL. -/
def entryWithinTTL (s : URLStore) (url : String) (now : Nat) : Prop :=
  ∃ p ∈ s.urls, p.2.url = url ∧ now - p.2.timestamp ≤ s.ttl

/-! ## Stop discipline of the components

Each component owns one `stopChan`; its `Stop` method either guards the
`close` with a non-blocking `select` (returning at once when the channel is
already closed) or closes unconditionally.  The model is the channel's
closed flag together with whether the call panics: `close` on a closed Go
channel panics. -/

/-- Result of a `Stop` call: it returned normally, or it panicked. -/
inductive StopResult where
  | returned
  | panicked
deriving Repr, DecidableEq

/-- `close(ch)` on a Go channel whose closed flag is `closed`: panics exactly
when the channel is already closed. -/
def goChanClose (closed : Bool) : Bool × StopResult :=
  (true, if closed then .panicked else .returned)

/-- `URLStore.Stop` (url_store.go): `close(s.stopChan)` with no guard, then
join the sweeper. -/
def URLStore.StopCtl (closed : Bool) : Bool × StopResult :=
  goChanClose closed

/-- `ActivityTracker.Stop`: under the lock, a non-blocking `select` returns
at once when `stopChan` is already closed, else closes it. -/
def ActivityTracker.StopCtl (closed : Bool) : Bool × StopResult :=
  if closed then (closed, .returned) else goChanClose closed

/-- `WindowTracker.Stop`: same guarded pattern as the activity tracker. -/
def WindowTracker.StopCtl (closed : Bool) : Bool × StopResult :=
  if closed then (closed, .returned) else goChanClose closed

/-- `EventCollector.Stop`: same guarded pattern. -/
def EventCollector.StopCtl (closed : Bool) : Bool × StopResult :=
  if closed then (closed, .returned) else goChanClose closed

/-- `TrackingService.Stop`: same guarded pattern (also setting the `stopped`
flag before closing). -/
def TrackingService.StopCtl (closed : Bool) : Bool × StopResult :=
  if closed then (closed, .returned) else goChanClose closed

/-! ## Sample values used by witnesses and counterexamples -/

/-- A sample tracking event. -/
def ev0 : TrackingEvent :=
  ⟨"device-1", 1000, "active", some "chrome", some "GitHub", none, none, none⟩

/-- A second sample tracking event. -/
def ev1 : TrackingEvent :=
  ⟨"device-1", 2000, "idle", none, none, none, some 1000, none⟩

/-- A sample URL store holding one fresh entry under a 60-unit TTL. -/
def sampleStore : URLStore :=
  ⟨[("chrome:GitHub", ⟨"https://github.com/x", 5⟩)], 60⟩

/-- A sample pending row: old (`created_at = 0`) and past the retry bound. -/
def r0 : PendingRow := ⟨1, ev0, "device-1", 0, 11, none⟩

/-- An iteration order of `browserMap` that reaches the `edge` entries before
the `chrome` entries — one of the orders Go's randomised `range` can
produce. -/
def orderEdgeFirst : List (String × String) :=
  [("edge", "edge"),
   ("microsoft edge", "edge"),
   ("chrome", "chrome"),
   ("google chrome", "chrome"),
   ("chromium", "chrome"),
   ("firefox", "firefox"),
   ("mozilla firefox", "firefox"),
   ("safari", "safari"),
   ("opera", "opera"),
   ("brave", "brave"),
   ("vivaldi", "vivaldi")]

instance (q : QueueState) (e : TrackingEvent) : Decidable (eventInQueue q e) :=
  inferInstanceAs (Decidable (∃ r ∈ q.rows, r.eventData = e))

instance (q : QueueState) (r : PendingRow) : Decidable (rowSurvives q r) :=
  inferInstanceAs (Decidable (∃ r₂ ∈ q.rows, r₂.id = r.id ∧ r₂.eventData = r.eventData))

instance (s : URLStore) (url : String) (now : Nat) : Decidable (entryWithinTTL s url now) :=
  inferInstanceAs (Decidable (∃ p ∈ s.urls, p.2.url = url ∧ now - p.2.timestamp ≤ s.ttl))

/-! ## Theorems -/

/-- C3: the claim states that a second `stop()` on any component is a
panic-free no-op.  The guarded components satisfy it, but `URLStore.Stop`
closes its stop channel unguarded, so the second call closes an
already-closed channel and panics — contradicting the stop discipline every
sibling component implements and the specification asserts. -/
theorem urlStore_second_stop_panics :
    (URLStore.StopCtl (URLStore.StopCtl false).1).2 = StopResult.panicked
    ∧ (ActivityTracker.StopCtl (ActivityTracker.StopCtl false).1).2 = StopResult.returned
    ∧ (WindowTracker.StopCtl (WindowTracker.StopCtl false).1).2 = StopResult.returned
    ∧ (EventCollector.StopCtl (EventCollector.StopCtl false).1).2 = StopResult.returned
    ∧ (TrackingService.StopCtl (TrackingService.StopCtl false).1).2 = StopResult.returned := by
  decide

/-- A row present in the table trivially survives. -/
theorem rowSurvives_of_mem (q : QueueState) (r : PendingRow) (hr : r ∈ q.rows) :
    rowSurvives q r :=
  ⟨r, hr, rfl, rfl⟩

/-- Membership in the table after `CleanupOldEvents`. -/
theorem mem_cleanup_iff (q : QueueState) (now olderThan : Int) (r : PendingRow) :
    r ∈ (EventQueue.CleanupOldEvents q now olderThan).rows ↔
      r ∈ q.rows ∧ ¬(r.createdAt < now - olderThan ∧ r.retryCount > 10) := by
  simp [EventQueue.CleanupOldEvents, List.mem_filter]
  intro _
  omega

/-- A committed `Enqueue` transaction only appends rows. -/
theorem enqueue_rows_mono (q : QueueState) (dev : String) (evs : List TrackingEvent)
    (now : Int) (f : DbFaults) (q₂ : QueueState)
    (h : EventQueue.Enqueue q dev evs now f = Except.ok q₂) (r : PendingRow)
    (hr : r ∈ q.rows) : r ∈ q₂.rows := by
  simp only [EventQueue.Enqueue] at h
  split_ifs at h
  all_goals try (injection h with h; subst h)
  all_goals exact List.mem_append_left _ hr

/-- A successful `IncrementRetry` keeps every queued event: a selected row is
replaced by one with the same id and payload, an unselected row is kept. -/
theorem incrementRetry_survives (q : QueueState) (ids : List Nat) (now : Int) (wf : Bool)
    (q₂ : QueueState) (h : EventQueue.IncrementRetry q ids now wf = Except.ok q₂)
    (r : PendingRow) (hr : r ∈ q.rows) : rowSurvives q₂ r := by
  simp only [EventQueue.IncrementRetry] at h
  split_ifs at h
  all_goals try (injection h with h; subst h)
  all_goals first
    | exact rowSurvives_of_mem q r hr
    | (refine ⟨if ids.contains r.id
          then { r with retryCount := r.retryCount + 1, lastAttempt := some now } else r,
        List.mem_map_of_mem _ hr, ?_, ?_⟩ <;> (split_ifs <;> rfl))

/-- A successful `Remove` drops a queued event only when its row id was in
the id list. -/
theorem remove_drop_ids (q : QueueState) (ids : List Nat) (wf : Bool)
    (q₂ : QueueState) (h : EventQueue.Remove q ids wf = Except.ok q₂)
    (r : PendingRow) (hr : r ∈ q.rows) (hns : ¬ rowSurvives q₂ r) : r.id ∈ ids := by
  simp only [EventQueue.Remove] at h
  split_ifs at h
  all_goals try (injection h with h; subst h)
  all_goals first
    | exact absurd (rowSurvives_of_mem q r hr) hns
    | (by_contra hid
       apply hns
       refine ⟨r, ?_, rfl, rfl⟩
       simp [List.mem_filter, hr, hid])

/-- C6: `CleanupOldEvents` keeps a row exactly when it was present before and
does not satisfy `created_at < now − olderThan AND retry_count > 10` (first
conjunct), and this is the only path by which a queued event is dropped
without delivery: the sink's enqueue path never drops a queued event (second
conjunct); a drain cycle drops a queued event only when the send of the
dequeued batch containing it succeeded, i.e. the event was delivered (third
conjunct); and the cleanup drops only rows meeting the age-and-retry
condition (fourth conjunct).  These are the only operations that touch
`pending_events`; `Dequeue`'s corrupt-row deletion is unreachable for rows
the agent wrote, as `EventQueue.Dequeue`'s comment records. -/
theorem cleanup_deletes_exactly (q : QueueState) (now olderThan now₂ : Int) (r : PendingRow)
    (dev : String) (evs : List TrackingEvent) (sendOk qf sendOk₂ wf : Bool) (f : DbFaults) :
    (r ∈ (EventQueue.CleanupOldEvents q now olderThan).rows ↔
      r ∈ q.rows ∧ ¬(r.createdAt < now - olderThan ∧ r.retryCount > 10))
    ∧ (r ∈ q.rows → rowSurvives (onBatchReady q dev evs sendOk now₂ f) r)
    ∧ (r ∈ q.rows → ¬ rowSurvives (processQueue q dev qf sendOk₂ now₂ wf) r →
        sendOk₂ = true ∧ r.id ∈ (EventQueue.Dequeue q dev 100).2)
    ∧ (r ∈ q.rows → ¬ rowSurvives (EventQueue.CleanupOldEvents q now olderThan) r →
        r.createdAt < now - olderThan ∧ r.retryCount > 10) := by
  refine ⟨mem_cleanup_iff q now olderThan r, ?_, ?_, ?_⟩
  · intro hr
    unfold onBatchReady
    split_ifs
    · exact rowSurvives_of_mem q r hr
    · exact rowSurvives_of_mem q r hr
    · cases he : EventQueue.Enqueue q dev evs now₂ f with
      | ok q₂ =>
        exact rowSurvives_of_mem q₂ r (enqueue_rows_mono q dev evs now₂ f q₂ he r hr)
      | error e =>
        exact rowSurvives_of_mem q r hr
  · intro hr hns
    simp only [processQueue] at hns
    split_ifs at hns with hqf hcnt hids hsend
    · exact absurd (rowSurvives_of_mem q r hr) hns
    · exact absurd (rowSurvives_of_mem q r hr) hns
    · exact absurd (rowSurvives_of_mem q r hr) hns
    · cases he : EventQueue.IncrementRetry q (EventQueue.Dequeue q dev 100).2 now₂ wf with
      | ok q₂ =>
        rw [he] at hns
        exact absurd (incrementRetry_survives q _ now₂ wf q₂ he r hr) hns
      | error e =>
        rw [he] at hns
        exact absurd (rowSurvives_of_mem q r hr) hns
    · have hsend' : sendOk₂ = true := by
        simpa using hsend
      cases he : EventQueue.Remove q (EventQueue.Dequeue q dev 100).2 wf with
      | ok q₂ =>
        rw [he] at hns
        exact ⟨hsend', remove_drop_ids q _ wf q₂ he r hr hns⟩
      | error e =>
        rw [he] at hns
        exact absurd (rowSurvives_of_mem q r hr) hns
  · intro hr hns
    by_contra hcond
    exact hns ⟨r, (mem_cleanup_iff q now olderThan r).mpr ⟨hr, hcond⟩, rfl, rfl⟩

/-- C6 witness: a row that is old and past the retry bound is dropped by the
cleanup while satisfying the condition; the same row dropped by a drain
cycle was part of a successfully sent dequeued batch. -/
theorem cleanup_deletes_exactly_witness :
    (r0.createdAt < (100 : Int) - 10 ∧ r0.retryCount > 10)
    ∧ (true = true ∧ r0.id ∈ (EventQueue.Dequeue ⟨[r0], 2⟩ "device-1" 100).2) :=
  ⟨(cleanup_deletes_exactly ⟨[r0], 2⟩ 100 10 0 r0 "device-1" [] false false false false
      noDbFaults).2.2.2 (by decide) (by decide),
   (cleanup_deletes_exactly ⟨[r0], 2⟩ 100 10 0 r0 "device-1" [] false false true false
      noDbFaults).2.2.1 (by decide) (by decide)⟩

/-- C7: the state derived on a periodic tick is total and deterministic:
`away` exactly when `Δ ≥ away_threshold`, else `idle` exactly when
`Δ ≥ idle_threshold`, else `active`; `offline` is never derived; and when the
two thresholds coincide, a delta reaching them resolves to `away`. -/
theorem checkState_totality (idleT awayT lastActivity now : Int) :
    (ActivityTracker.checkStateResult idleT awayT lastActivity now = .away ↔
      now - lastActivity ≥ awayT)
    ∧ (ActivityTracker.checkStateResult idleT awayT lastActivity now = .idle ↔
      (now - lastActivity < awayT ∧ now - lastActivity ≥ idleT))
    ∧ (ActivityTracker.checkStateResult idleT awayT lastActivity now = .active ↔
      (now - lastActivity < awayT ∧ now - lastActivity < idleT))
    ∧ ActivityTracker.checkStateResult idleT awayT lastActivity now ≠ .offline
    ∧ (awayT = idleT → now - lastActivity ≥ awayT →
      ActivityTracker.checkStateResult idleT awayT lastActivity now = .away) := by
  simp only [ActivityTracker.checkStateResult]
  split_ifs <;> simp_all <;> omega

/-- C7 witness: equal thresholds with the delta exactly at them derive
`away`. -/
theorem checkState_totality_witness :
    ActivityTracker.checkStateResult 300 300 0 300 = ActivityState.away :=
  (checkState_totality 300 300 0 300).2.2.2.2 rfl (by decide)

/-- C8: an `AddEvent` that leaves the buffer below `batch_size` appends and
invokes no callback, while the add that reaches `batch_size` (or beyond)
drains the whole buffer, hands exactly the drained events to the callback
once, and leaves the buffer empty. -/
theorem addEvent_flush_boundary (c : CollectorState) (e : TrackingEvent) :
    (c.events.length + 1 < c.batchSize →
      EventCollector.AddEvent c e = ({ c with events := c.events ++ [e] }, none))
    ∧ (c.events.length + 1 ≥ c.batchSize →
      EventCollector.AddEvent c e = ({ c with events := [] }, some (c.events ++ [e]))) := by
  unfold EventCollector.AddEvent
  constructor
  · intro h
    rw [if_neg]
    simp only [List.length_append, List.length_cons, List.length_nil]
    omega
  · intro h
    rw [if_pos]
    simp only [List.length_append, List.length_cons, List.length_nil]
    omega

/-- C8 witness: with `batch_size = 2`, the first add (buffer reaches
`batch_size − 1`) does not flush; the second add flushes exactly the two
buffered events and empties the buffer. -/
theorem addEvent_flush_boundary_witness :
    EventCollector.AddEvent ⟨[], 2⟩ ev0 = (⟨[ev0], 2⟩, none)
    ∧ EventCollector.AddEvent ⟨[ev0], 2⟩ ev1 = (⟨[], 2⟩, some [ev0, ev1]) :=
  ⟨(addEvent_flush_boundary ⟨[], 2⟩ ev0).1 (by decide),
   (addEvent_flush_boundary ⟨[ev0], 2⟩ ev1).2 (by decide)⟩

/-- C10: `Remove` and `IncrementRetry` called with an empty id list return
`nil` immediately — even on a database that would fail any statement — and
leave every row of `pending_events` unchanged. -/
theorem remove_incrementRetry_empty_noop (q : QueueState) (now : Int) (dbFails : Bool) :
    EventQueue.Remove q [] dbFails = Except.ok q
    ∧ EventQueue.IncrementRetry q [] now dbFails = Except.ok q :=
  ⟨rfl, rfl⟩

/-- C2: at the title `"Google - YouTube"` with a recognised browser, the
parser returns `https://google.com`, not the `https://youtube.com` its own
documentation and the specification promise: priority 1 applies the
word-boundary google rule to the first part `"google"` and returns before the
YouTube destination is ever examined.  The word-boundary rule itself does
reject `"google chrome"` and `"google search"`, as claimed. -/
theorem extractDomain_google_youtube :
    extractDomainFromTitle "Google - YouTube" "chrome" = some "https://google.com"
    ∧ extractDomainFromTitle "Google - YouTube" "chrome" ≠ some "https://youtube.com"
    ∧ matchGoogleSite "Google Chrome" = ""
    ∧ matchGoogleSite "Google Search" = ""
    ∧ matchGoogleSite "google" = "google.com" := by
  refine ⟨by decide, by decide, by decide, by decide, by decide⟩

/-- Every row produced by a fault-free insert loop carries exactly the events
of the batch, in order. -/
theorem insertLoop_faultless_events (dev : String) (now : Int) :
    ∀ (events : List TrackingEvent) (nextId i : Nat),
      (insertLoop dev now nextId i events []).map PendingRow.eventData = events := by
  intro events
  induction events with
  | nil => intro nextId i; rfl
  | cons a l ih =>
    intro nextId i
    simp [insertLoop, ih]

/-- C1 (amended): an event of a batch delivered to the sink whose send
failed is present in `pending_events` after `on_batch_ready`, provided the
enqueue transaction begins, every insert succeeds, and the commit succeeds. -/
theorem onBatchReady_no_loss (q : QueueState) (dev : String) (events : List TrackingEvent)
    (now : Int) (f : DbFaults) (e : TrackingEvent)
    (he : e ∈ events) (hb : f.beginFails = false) (hi : f.insertFails = [])
    (hc : f.commitFails = false) :
    eventInQueue (onBatchReady q dev events false now f) e := by
  have hne : ¬ events.length = 0 := by
    intro h0
    rw [List.length_eq_zero] at h0
    subst h0
    cases he
  unfold onBatchReady EventQueue.Enqueue
  rw [if_neg hne, hb, hi, hc]
  simp only [Bool.false_eq_true, if_false]
  have hmem : e ∈ (insertLoop dev now q.nextId 0 events []).map PendingRow.eventData := by
    rw [insertLoop_faultless_events]
    exact he
  obtain ⟨r, hr, hre⟩ := List.mem_map.mp hmem
  exact ⟨r, List.mem_append_right _ hr, hre⟩

/-- C1 counterexample: with a send failure and an enqueue transaction that
fails to begin, the delivered event is in neither a 2xx-acknowledged batch
nor `pending_events` — the batch is dropped, as the code's own log line
("Failed to queue events") records. -/
theorem onBatchReady_loss_on_enqueue_failure :
    APIClient.SendBatch [ev0] HttpOutcome.transportError ≠ SendOutcome.success
    ∧ ¬ eventInQueue (onBatchReady ⟨[], 1⟩ "device-1" [ev0] false 0 ⟨true, [], false⟩) ev0 := by
  refine ⟨by decide, by decide⟩

/-- C1 witness: with a fault-free database, a batch whose send failed lands
in `pending_events`. -/
theorem onBatchReady_no_loss_witness :
    eventInQueue (onBatchReady ⟨[], 1⟩ "device-1" [ev0] false 0 noDbFaults) ev0 :=
  onBatchReady_no_loss ⟨[], 1⟩ "device-1" [ev0] 0 noDbFaults ev0
    (List.mem_singleton.mpr rfl) rfl rfl rfl

/-- An exact-key `Get` hit is carried by a stored entry within the TTL. -/
theorem get_within_ttl (s : URLStore) (key url : String) (now : Nat)
    (h : URLStore.Get s key now = some url) : entryWithinTTL s url now := by
  unfold URLStore.Get at h
  split at h
  · simp at h
  · rename_i p hf
    split at h
    · simp at h
    · rename_i hexp
      injection h with h
      exact ⟨p, List.mem_of_find?_eq_some hf, h, Nat.le_of_not_lt hexp⟩

/-- C4: no lookup — neither the exact-key `Get` path nor the fuzzy scan of
`GetByApplicationAndTitle` — returns a URL whose entry is older than the TTL:
an expired entry is treated as absent even before the sweeper deletes it. -/
theorem lookup_never_returns_expired (s : URLStore) (key application title url₁ url₂ : String)
    (now : Nat) :
    (URLStore.Get s key now = some url₁ → entryWithinTTL s url₁ now)
    ∧ (URLStore.GetByApplicationAndTitle s application title now = some url₂ →
      entryWithinTTL s url₂ now) := by
  constructor
  · exact get_within_ttl s key url₁ now
  · intro h
    simp only [URLStore.GetByApplicationAndTitle, URLStore.GetByApplicationAndTitleOrd] at h
    split at h
    · rename_i u hg
      injection h with h
      subst h
      exact get_within_ttl s _ _ now hg
    · split at h
      · rename_i p hf
        injection h with h
        have hpred := List.find?_some hf
        have hfresh : ¬ now - p.2.timestamp > s.ttl := by
          simp only [fuzzyEntryMatches, Bool.and_eq_true, Bool.not_eq_true',
            decide_eq_false_iff_not] at hpred
          exact hpred.1.1
        exact ⟨p, List.mem_of_find?_eq_some hf, h, Nat.le_of_not_lt hfresh⟩
      · simp at h

/-- C4 witness: a fresh entry is both returned by `Get` and within TTL. -/
theorem lookup_never_returns_expired_witness :
    entryWithinTTL sampleStore "https://github.com/x" 30 :=
  (lookup_never_returns_expired sampleStore "chrome:GitHub" "chrome" "GitHub"
    "https://github.com/x" "unused" 30).1 (by decide)

/-- C5 (amended): for a non-empty batch, `SendBatch` succeeds exactly on a
2xx status; 400 maps to the bad-request kind, 401 and 403 to the auth kind,
429 to the rate-limit kind, and every other failing status to the backend
kind; a transport error yields the generic request-failed error. -/
theorem sendBatch_classification (events : List TrackingEvent) (status : Nat)
    (hne : events ≠ []) :
    (APIClient.SendBatch events (.response status) = .success ↔ 200 ≤ status ∧ status < 300)
    ∧ (status = 400 → APIClient.SendBatch events (.response status) = .badRequestErr)
    ∧ (status = 401 ∨ status = 403 → APIClient.SendBatch events (.response status) = .authErr)
    ∧ (status = 429 → APIClient.SendBatch events (.response status) = .rateLimitErr)
    ∧ (¬(200 ≤ status ∧ status < 300) → status ≠ 400 → status ≠ 401 → status ≠ 403 →
      status ≠ 429 → APIClient.SendBatch events (.response status) = .backendErr)
    ∧ APIClient.SendBatch events .transportError = .requestFailedErr := by
  have hlen : ¬ events.length = 0 := by
    simpa [List.length_eq_zero] using hne
  unfold APIClient.SendBatch
  simp only [if_neg hlen]
  refine ⟨?_, ?_, ?_, ?_, ?_, trivial⟩ <;>
    · intros
      split_ifs <;> simp_all <;> omega

/-- C5 counterexample: a transport error produces the plain wrapped
`request failed` error, which is not the `BackendError` kind the claim
assigns it; and an empty batch is rejected before any request, so a 2xx
status does not imply success there. -/
theorem sendBatch_transport_not_backend :
    APIClient.SendBatch [ev0] HttpOutcome.transportError = SendOutcome.requestFailedErr
    ∧ APIClient.SendBatch [ev0] HttpOutcome.transportError ≠ SendOutcome.backendErr
    ∧ APIClient.SendBatch [] (HttpOutcome.response 200) ≠ SendOutcome.success := by
  refine ⟨by decide, by decide, by decide⟩

/-- C5 witness: a 500 response on a non-empty batch maps to the backend
kind. -/
theorem sendBatch_classification_witness :
    APIClient.SendBatch [ev0] (HttpOutcome.response 500) = SendOutcome.backendErr :=
  (sendBatch_classification [ev0] 500 (by decide)).2.2.2.2.1
    (by decide) (by decide) (by decide) (by decide) (by decide)

/-- Looking up the key just written by a Go map assignment finds the new
binding. -/
theorem find?_mapInsert (m : List (String × URLInfo)) (k : String) (v : URLInfo) :
    (mapInsert m k v).find? (fun p => p.1 = k) = some (k, v) := by
  induction m with
  | nil => simp [mapInsert]
  | cons p rest ih =>
    by_cases h : p.1 = k
    · simp [mapInsert, h]
    · simp [mapInsert, h, ih]

/-- Whenever some `browserMap` key is contained in the lowercased application
and all contained keys carry one tag, `normalizeApplicationName` returns that
tag under every iteration order of the map. -/
theorem normalizeOrd_eq_tag (a : String) (order : List (String × String))
    (ho : List.Perm order browserMapEntries) (x : String × String)
    (hxmem : x ∈ browserMapEntries) (hxp : goContains (goToLower a) x.1 = true)
    (hcoh : ∀ p ∈ browserMapEntries, ∀ p₂ ∈ browserMapEntries,
      goContains (goToLower a) p.1 = true → goContains (goToLower a) p₂.1 = true →
      p.2 = p₂.2) :
    normalizeApplicationNameOrd order a = x.2 := by
  simp only [normalizeApplicationNameOrd]
  have hsome : (order.find? (fun p => goContains (goToLower a) p.1)).isSome :=
    List.find?_isSome.mpr ⟨x, ho.mem_iff.mpr hxmem, hxp⟩
  cases hf : order.find? (fun p => goContains (goToLower a) p.1) with
  | none => rw [hf] at hsome; cases hsome
  | some p =>
    have hp : goContains (goToLower a) p.1 = true := by
      simpa using List.find?_some hf
    exact hcoh p (ho.mem_iff.mp (List.mem_of_find?_eq_some hf)) x hxmem hp hxp

/-- C9 (amended): after `store(a, t, u)`, a lookup with the same application
and title within the TTL returns `u` for any application that matches at
least one `browserMap` key and whose matching keys all agree on one browser
tag — true of every real browser name — and this holds under ANY pair of map
iteration orders seen by the store call and the lookup call.  (For an
adversarial name matching keys with different tags, Go's per-call
randomisation of the map order can make the two calls normalise differently,
and the lookup misses; see the counterexample.) -/
theorem store_then_lookup_coherent (s : URLStore) (a t u : String) (t₁ t₂ : Nat)
    (order₁ order₂ : List (String × String))
    (ho₁ : List.Perm order₁ browserMapEntries) (ho₂ : List.Perm order₂ browserMapEntries)
    (hmatch : ∃ p ∈ browserMapEntries, goContains (goToLower a) p.1 = true)
    (hcoh : ∀ p ∈ browserMapEntries, ∀ p₂ ∈ browserMapEntries,
      goContains (goToLower a) p.1 = true → goContains (goToLower a) p₂.1 = true →
      p.2 = p₂.2)
    (httl : t₂ - t₁ ≤ s.ttl) :
    URLStore.GetByApplicationAndTitleOrd
      (URLStore.StoreByApplicationAndTitleOrd s order₁ a t u t₁) order₂ a t t₂ = some u := by
  obtain ⟨x, hxmem, hxp⟩ := hmatch
  have hn₁ : normalizeApplicationNameOrd order₁ a = x.2 :=
    normalizeOrd_eq_tag a order₁ ho₁ x hxmem hxp hcoh
  have hn₂ : normalizeApplicationNameOrd order₂ a = x.2 :=
    normalizeOrd_eq_tag a order₂ ho₂ x hxmem hxp hcoh
  have hget : URLStore.Get (URLStore.StoreByApplicationAndTitleOrd s order₁ a t u t₁)
      (normalizeApplicationNameOrd order₂ a ++ ":" ++ t) t₂ = some u := by
    unfold URLStore.Get URLStore.StoreByApplicationAndTitleOrd URLStore.Store makeKeyOrd
    simp only [hn₁, hn₂, find?_mapInsert]
    rw [if_neg (by omega)]
  simp only [URLStore.GetByApplicationAndTitleOrd]
  rw [hget]

/-- C9 counterexample: the application `"edge chrome"` normalises to a known
browser (it contains both the `chrome` and the `edge` keys), yet with the
store call seeing the source-listing order (normalising to `chrome`) and the
lookup call seeing the equally admissible edge-first order (normalising to
`edge`) — both genuine permutations of the map — the lookup misses within
the TTL: the exact keys differ and the fuzzy scan requires the `edge:` key
prefix. -/
theorem store_then_lookup_order_mismatch :
    List.Perm orderEdgeFirst browserMapEntries
    ∧ normalizesToKnownBrowser "edge chrome" = true
    ∧ normalizeApplicationNameOrd browserMapEntries "edge chrome" = "chrome"
    ∧ normalizeApplicationNameOrd orderEdgeFirst "edge chrome" = "edge"
    ∧ URLStore.GetByApplicationAndTitleOrd
        (URLStore.StoreByApplicationAndTitleOrd ⟨[], 60⟩ browserMapEntries "edge chrome"
          "GitHub" "https://github.com/x" 0)
        orderEdgeFirst "edge chrome" "GitHub" 10 = none := by
  refine ⟨by decide, by decide, by decide, by decide, by decide⟩

/-- C9 witness: `"Google Chrome"` matches the keys `chrome` and
`google chrome`, both tagged `chrome`, so the round trip succeeds (here with
both calls seeing the source-listing order). -/
theorem store_then_lookup_coherent_witness :
    URLStore.GetByApplicationAndTitleOrd
      (URLStore.StoreByApplicationAndTitleOrd ⟨[], 60⟩ browserMapEntries "Google Chrome"
        "GitHub · Repos" "https://github.com/x" 0)
      browserMapEntries "Google Chrome" "GitHub · Repos" 30 = some "https://github.com/x" :=
  store_then_lookup_coherent ⟨[], 60⟩ "Google Chrome" "GitHub · Repos" "https://github.com/x"
    0 30 browserMapEntries browserMapEntries (List.Perm.refl _) (List.Perm.refl _)
    ⟨("chrome", "chrome"), by decide, by decide⟩ (by decide) (by decide)

end TimeAgent
